import Mathlib

/-!
Shallow embedding of the job-scraper pipeline (src/scraper.py) for checking
the natural-language specification against the code.

Text is modelled as `List Char` (Python `str`), timestamps as `Int`
(epoch seconds; `timedelta(days=d)` becomes `d * 86400`), and scores as
`Int` (all score contributions in the source are integral).  Definitions
are translated from the source; the few definitions written from the
wording of the specification instead are clearly marked as such in their
doc comments.
-/

namespace Scraper

/-- Convert a Lean string literal to the `List Char` text model. -/
def chars (s : String) : List Char := s.data

/-- Python `str.lower`, restricted to per-character lowering. -/
def toLowerL (s : List Char) : List Char := s.map Char.toLower

/-- Helper for substring search: does `p` start the list `l`? -/
def isPrefixL : List Char → List Char → Bool
  | [], _ => true
  | _ :: _, [] => false
  | a :: as, b :: bs => a == b && isPrefixL as bs

/-- Python `needle in hay` on strings: `needle` occurs contiguously in `hay`.
The empty needle occurs in every string, as in Python. -/
def containsSub (needle : List Char) : List Char → Bool
  | [] => needle.isEmpty
  | c :: rest => isPrefixL needle (c :: rest) || containsSub needle rest

/-- Match reasons accumulated by `RelevanceScorer.score`; each constructor
stands for one of the f-strings appended to `reasons` in the source. -/
inductive Reason where
  | titleMatch (target : List Char)
  | seniorityMatch (indicator : List Char)
  | keywords (count : Nat) (firstFive : List (List Char))
  | location (loc : List Char)
  | locationExcluded (exc : List Char)
  | targetCompany (name : List Char)
  | salaryHigh (amount : Int)
  | salaryLow (amount : Int)
  | negative (neg : List Char)
deriving DecidableEq, Repr

/-- `JobPosting` dataclass from src/scraper.py (lines 58-75).  The
`job_id` field holds the identity; in the source it is the md5 digest of
the pre-hash string `title|company|url`.  md5 is a fixed deterministic
function of that string, so identity facts are stated at the pre-hash
level; the claims themselves carry the matching caveat
"absent a hash collision". -/
structure JobPosting where
  title : List Char
  company : List Char
  location : List Char
  url : List Char
  source : List Char
  description : List Char := []
  salary_info : List Char := []
  date_posted : List Char := []
  relevance_score : Int := 0
  match_reasons : List Reason := []
  job_id : List Char := []
deriving DecidableEq, Repr

/-- The pre-hash identity string built in `JobPosting.__post_init__`
(line 74): `f"{self.title}|{self.company}|{self.url}"`. -/
def job_id_raw (title company url : List Char) : List Char :=
  title ++ '|' :: (company ++ '|' :: url)

/-- Construction of a posting as done by every adapter: `job_id` is never
supplied, so `__post_init__` always computes it from the pre-hash string. -/
def mkJobPosting (title company location url source description salary_info
    date_posted : List Char) : JobPosting :=
  { title := title, company := company, location := location, url := url,
    source := source, description := description, salary_info := salary_info,
    date_posted := date_posted, relevance_score := 0, match_reasons := [],
    job_id := job_id_raw title company url }

/-! ### Run-local deduplication (run, lines 945-951) -/

/-- Dedup key from line 948: `job.url if job.url else f"{job.title}|{job.company}"`.
Both branches land in the same string-valued namespace (the single
`seen_urls` set). -/
def dedupKey (j : JobPosting) : List Char :=
  if j.url = [] then j.title ++ '|' :: j.company else j.url

/-- The dedup loop of lines 945-951, generalised over the key function:
walk the list keeping a set of keys already seen, keep a posting iff its
key is fresh. -/
def dedupByAux {κ : Type} [DecidableEq κ] (key : JobPosting → κ)
    (seen : List κ) : List JobPosting → List JobPosting
  | [] => []
  | j :: rest =>
    if key j ∈ seen then dedupByAux key seen rest
    else j :: dedupByAux key (key j :: seen) rest

/-- Dedup starting from an empty seen set. -/
def dedupBy {κ : Type} [DecidableEq κ] (key : JobPosting → κ)
    (l : List JobPosting) : List JobPosting :=
  dedupByAux key [] l

/-- The deduplication performed by `run` (lines 945-951). -/
def dedup (l : List JobPosting) : List JobPosting :=
  dedupBy dedupKey l

/-- Modelled from the claim wording of C3: the key is the url when
non-empty and otherwise the PAIR (title, company), the two kinds being
distinct keys. -/
inductive ClaimKey where
  | byUrl (u : List Char)
  | byPair (title company : List Char)
deriving DecidableEq

/-- Modelled from the claim wording of C3: key selection as a sum of a
url key and a (title, company) pair key. -/
def claimKeyOf (j : JobPosting) : ClaimKey :=
  if j.url = [] then ClaimKey.byPair j.title j.company else ClaimKey.byUrl j.url

/-- Modelled from the claim wording of C3: deduplication keeping one
entry per distinct `ClaimKey`, first occurrence order. -/
def claimDedupC3 (l : List JobPosting) : List JobPosting :=
  dedupBy claimKeyOf l

/-! ### Report ordering (run lines 976-978, ReportGenerator.generate line 656) -/

/-- Stable descending insertion by `relevance_score`: a job is placed
before the first job of strictly smaller score, so equal scores keep
their relative order, as Python `list.sort(key=..., reverse=True)` does. -/
def insertDesc (j : JobPosting) : List JobPosting → List JobPosting
  | [] => [j]
  | x :: xs =>
    if x.relevance_score ≤ j.relevance_score then j :: x :: xs
    else x :: insertDesc j xs

/-- The in-place `jobs.sort(key=lambda j: j.relevance_score, reverse=True)`
of `ReportGenerator.generate` (line 656). -/
def sortDesc : List JobPosting → List JobPosting
  | [] => []
  | x :: xs => insertDesc x (sortDesc xs)

/-- `report_jobs = new_jobs[:max_results]` (line 977): the list `run`
hands to `ReportGenerator.generate`. -/
def report_jobs (new_jobs : List JobPosting) (max_results : Nat) :
    List JobPosting :=
  new_jobs.take max_results

/-- The sequence in which the renderer emits the postings: `generate`
sorts the handed-over list by score descending before rendering. -/
def reportSequence (new_jobs : List JobPosting) (max_results : Nat) :
    List JobPosting :=
  sortDesc (report_jobs new_jobs max_results)

/-- Modelled from the claim wording of C1: sort the full retained set by
score descending FIRST, then truncate to the output cap. -/
def specSortThenTruncate (new_jobs : List JobPosting) (max_results : Nat) :
    List JobPosting :=
  (sortDesc new_jobs).take max_results

/-! ### Salary regex (RelevanceScorer.score, lines 238-252)

The source runs `re.search` with the pattern
`(\d{2,3})[.,]?(\d{3})?\s*(?:€|eur|euro)` over the lowered salary text.
The functions below implement exactly that search: leftmost match wins,
and at a given start position the alternatives are tried in the backtracking
order of the Python engine (3 digits before 2; separator consumed before
skipped; 3-digit group consumed before skipped; maximal whitespace run,
which never needs giving back because no whitespace character can begin a
currency marker).  The match is reported as the two capture groups. -/

/-- Python `\s` on the ASCII range (the inputs of interest are ASCII plus
the euro sign, which is not whitespace). -/
def isWs (c : Char) : Bool :=
  c = ' ' || c = '\t' || c = '\n' || c = '\r' || c = '\x0b' || c = '\x0c'

/-- Take exactly `n` digit characters from the front, returning them and
the rest; fails if fewer than `n` digits lead the list. -/
def tryDigits : Nat → List Char → Option (List Char × List Char)
  | 0, cs => some ([], cs)
  | _ + 1, [] => none
  | n + 1, c :: cs =>
    if c.isDigit then
      match tryDigits n cs with
      | some (ds, rest) => some (c :: ds, rest)
      | none => none
    else none

/-- Maximal-munch `\s*`. -/
def skipWs : List Char → List Char
  | [] => []
  | c :: cs => if isWs c then skipWs cs else c :: cs

/-- The alternation `(?:€|eur|euro)` at the current position.  The `euro`
branch can only be reached when `eur` already matched, so it never fires
on its own. -/
def tryCurrency : List Char → Bool
  | '€' :: _ => true
  | 'e' :: 'u' :: 'r' :: _ => true
  | _ => false

/-- After the first digit group: `(\d{3})?\s*(?:€|eur|euro)` with the
optional group tried greedily first. -/
def currencyAfterOpt (d1 : List Char) (r : List Char) :
    Option (List Char × Option (List Char)) :=
  match tryDigits 3 r with
  | some (g2, r3) =>
    if tryCurrency (skipWs r3) then some (d1, some g2)
    else if tryCurrency (skipWs r) then some (d1, none)
    else none
  | none =>
    if tryCurrency (skipWs r) then some (d1, none)
    else none

/-- After the first digit group: `[.,]?(\d{3})?\s*(?:€|eur|euro)`, the
optional separator tried greedily first. -/
def finishMatch (d1 : List Char) (r : List Char) :
    Option (List Char × Option (List Char)) :=
  match r with
  | c :: r2 =>
    if c = '.' ∨ c = ',' then
      match currencyAfterOpt d1 r2 with
      | some m => some m
      | none => currencyAfterOpt d1 r
    else currencyAfterOpt d1 r
  | [] => currencyAfterOpt d1 r

/-- Attempt the whole pattern anchored at the current position: greedy
`\d{2,3}` tries three digits, then two. -/
def matchAt (cs : List Char) : Option (List Char × Option (List Char)) :=
  match tryDigits 3 cs with
  | some (d1, r) =>
    match finishMatch d1 r with
    | some m => some m
    | none =>
      match tryDigits 2 cs with
      | some (d2, r2) => finishMatch d2 r2
      | none => none
  | none =>
    match tryDigits 2 cs with
    | some (d2, r2) => finishMatch d2 r2
    | none => none

/-- `re.search`: try every start position left to right. -/
def searchSalary : List Char → Option (List Char × Option (List Char))
  | [] => none
  | c :: cs =>
    match matchAt (c :: cs) with
    | some m => some m
    | none => searchSalary cs

/-- Python `int` on a non-empty digit string. -/
def digitsToNat (ds : List Char) : Nat :=
  ds.foldl (fun a c => 10 * a + (c.toNat - '0'.toNat)) 0

/-- The salary block of `RelevanceScorer.score` (lines 237-252): search
the pattern, rebuild the amount exactly as the source does
(`amount = int(g1) * (1000 if not g2 else 1)` followed by
`if g2: amount = int(g1 + g2)`), then apply the two thresholds.  The
`except (ValueError, TypeError)` of the source can never fire because the
captured groups are digit strings, so it has no counterpart here. -/
def salarySignal (s : List Char) : Int × List Reason :=
  match searchSalary s with
  | none => (0, [])
  | some (d1, g2) =>
    let amount0 : Int := (digitsToNat d1 : Int) * (if g2.isSome then 1 else 1000)
    let amount : Int :=
      match g2 with
      | some g => (digitsToNat (d1 ++ g) : Int)
      | none => amount0
    if amount ≥ 100000 then (10, [Reason.salaryHigh amount])
    else if amount < 60000 then (-20, [Reason.salaryLow amount])
    else (0, [])

/-! ### Relevance scorer (RelevanceScorer.score, lines 189-262) -/

/-- The profile values as the `Config` properties hand them to the scorer
(lines 87-124): the title, keyword, location and seniority lists arrive
already lowercased by the config layer; target company names arrive raw
and are lowered inside the scorer. -/
structure Config where
  target_titles : List (List Char)
  positive_keywords : List (List Char)
  negative_keywords : List (List Char)
  min_score : Int
  location_include : List (List Char)
  location_exclude : List (List Char)
  seniority_indicators : List (List Char)
  target_companies : List (List Char)
deriving Repr

/-- The raw additive sum assembled by `RelevanceScorer.score` before the
final clamp (the running `score` variable of lines 190-258). -/
def rawScore (cfg : Config) (job : JobPosting) : Int :=
  let title_lower := toLowerL job.title
  let text := toLowerL (job.title ++ ' ' :: (job.company ++ ' ' ::
    (job.description ++ ' ' :: job.location)))
  let titlePts : Int :=
    match cfg.target_titles.find? (fun t => containsSub t title_lower) with
    | some _ => 35
    | none =>
      match cfg.seniority_indicators.find? (fun i => containsSub i title_lower) with
      | some _ => 15
      | none => 0
  let kw_hits := cfg.positive_keywords.filter (fun kw => containsSub kw text)
  let kwPts : Int := if kw_hits.isEmpty then 0 else min 30 ((kw_hits.length : Int) * 5)
  let loc_lower := toLowerL (job.location ++ ' ' :: job.description.take 500)
  let locPts : Int :=
    match cfg.location_include.find? (fun loc => containsSub loc loc_lower) with
    | some _ => 20
    | none => 0
  let excPts : Int :=
    -50 * ((cfg.location_exclude.filter (fun exc => containsSub exc loc_lower)).length : Int)
  let company_lower := toLowerL job.company
  let coPts : Int :=
    match cfg.target_companies.find? (fun tc =>
        containsSub (toLowerL tc) company_lower || containsSub company_lower (toLowerL tc)) with
    | some _ => 15
    | none => 0
  let salary_text := toLowerL (job.salary_info ++ ' ' :: job.description.take 1000)
  let salPts : Int := (salarySignal salary_text).1
  let negPts : Int :=
    -40 * ((cfg.negative_keywords.filter (fun neg => containsSub neg title_lower)).length : Int)
  titlePts + kwPts + locPts + excPts + coPts + salPts + negPts

/-- The reasons list assembled by `RelevanceScorer.score`, in rule order
1 to 7 as the source appends them. -/
def scoreReasons (cfg : Config) (job : JobPosting) : List Reason :=
  let title_lower := toLowerL job.title
  let text := toLowerL (job.title ++ ' ' :: (job.company ++ ' ' ::
    (job.description ++ ' ' :: job.location)))
  let titleReasons : List Reason :=
    match cfg.target_titles.find? (fun t => containsSub t title_lower) with
    | some t => [Reason.titleMatch t]
    | none =>
      match cfg.seniority_indicators.find? (fun i => containsSub i title_lower) with
      | some i => [Reason.seniorityMatch i]
      | none => []
  let kw_hits := cfg.positive_keywords.filter (fun kw => containsSub kw text)
  let kwReasons : List Reason :=
    if kw_hits.isEmpty then [] else [Reason.keywords kw_hits.length (kw_hits.take 5)]
  let loc_lower := toLowerL (job.location ++ ' ' :: job.description.take 500)
  let locReasons : List Reason :=
    match cfg.location_include.find? (fun loc => containsSub loc loc_lower) with
    | some loc => [Reason.location loc]
    | none => []
  let excReasons :=
    (cfg.location_exclude.filter (fun exc => containsSub exc loc_lower)).map
      Reason.locationExcluded
  let company_lower := toLowerL job.company
  let coReasons : List Reason :=
    match cfg.target_companies.find? (fun tc =>
        containsSub (toLowerL tc) company_lower || containsSub company_lower (toLowerL tc)) with
    | some tc => [Reason.targetCompany tc]
    | none => []
  let salary_text := toLowerL (job.salary_info ++ ' ' :: job.description.take 1000)
  let salReasons := (salarySignal salary_text).2
  let negReasons :=
    (cfg.negative_keywords.filter (fun neg => containsSub neg title_lower)).map
      Reason.negative
  titleReasons ++ kwReasons ++ locReasons ++ excReasons ++ coReasons ++
    salReasons ++ negReasons

/-- `RelevanceScorer.score` (lines 189-262): mutates only the score and
reasons fields of the posting it is given and returns it;
`relevance_score` is set to `max(0, min(100, score))` (line 260). -/
def score (cfg : Config) (job : JobPosting) : JobPosting :=
  { job with relevance_score := max 0 (min 100 (rawScore cfg job)),
             match_reasons := scoreReasons cfg job }

/-! ### Spec-side salary comparators for C2 -/

/-- Modelled from the claim wording of C2, which asserts that numbers in
the style of "95k eur" are also scanned: the currency tail additionally
accepts one optional letter k between the number and the whitespace run. -/
def kCurrencyTail (r : List Char) : Bool :=
  (match r with
   | 'k' :: t => tryCurrency (skipWs t)
   | _ => false) || tryCurrency (skipWs r)

/-- Modelled from the claim wording of C2: `currencyAfterOpt` with the
k-tolerant currency tail. -/
def currencyAfterOptK (d1 : List Char) (r : List Char) :
    Option (List Char × Option (List Char)) :=
  match tryDigits 3 r with
  | some (g2, r3) =>
    if kCurrencyTail r3 then some (d1, some g2)
    else if kCurrencyTail r then some (d1, none)
    else none
  | none =>
    if kCurrencyTail r then some (d1, none)
    else none

/-- Modelled from the claim wording of C2: `finishMatch` with the
k-tolerant currency tail. -/
def finishMatchK (d1 : List Char) (r : List Char) :
    Option (List Char × Option (List Char)) :=
  match r with
  | c :: r2 =>
    if c = '.' ∨ c = ',' then
      match currencyAfterOptK d1 r2 with
      | some m => some m
      | none => currencyAfterOptK d1 r
    else currencyAfterOptK d1 r
  | [] => currencyAfterOptK d1 r

/-- Modelled from the claim wording of C2: the anchored match with the
k-tolerant currency tail. -/
def matchAtK (cs : List Char) : Option (List Char × Option (List Char)) :=
  match tryDigits 3 cs with
  | some (d1, r) =>
    match finishMatchK d1 r with
    | some m => some m
    | none =>
      match tryDigits 2 cs with
      | some (d2, r2) => finishMatchK d2 r2
      | none => none
  | none =>
    match tryDigits 2 cs with
    | some (d2, r2) => finishMatchK d2 r2
    | none => none

/-- Modelled from the claim wording of C2: the search with the k-tolerant
currency tail, so that "95k eur" style numbers are found as the claim
asserts. -/
def searchSalaryK : List Char → Option (List Char × Option (List Char))
  | [] => none
  | c :: cs =>
    match matchAtK (c :: cs) with
    | some m => some m
    | none => searchSalaryK cs

/-- Modelled from the claim wording of C2: the scanned amount is rebuilt
(bare number times 1000, grouped number as the digit concatenation) and
the two thresholds applied, over the k-tolerant search. -/
def salarySpecC2 (s : List Char) : Int :=
  match searchSalaryK s with
  | none => 0
  | some (d1, g2) =>
    let amount : Int :=
      match g2 with
      | none => (digitsToNat d1 : Int) * 1000
      | some g => (digitsToNat (d1 ++ g) : Int)
    if amount ≥ 100000 then 10 else if amount < 60000 then -20 else 0

/-- Modelled from the amended wording of C2 (spec side of the refinement):
the amount of a match of the source regex is the bare number times 1000
when the 3-digit group is absent and the digit concatenation when it is
present, and the contribution is +10 at or above 100000, -20 below 60000
and 0 otherwise. -/
def salarySpecAmended (s : List Char) : Int :=
  match searchSalary s with
  | none => 0
  | some (d1, g2) =>
    let amount : Int :=
      match g2 with
      | none => (digitsToNat d1 : Int) * 1000
      | some g => (digitsToNat (d1 ++ g) : Int)
    if amount ≥ 100000 then 10 else if amount < 60000 then -20 else 0

/-! ### Seen jobs database, typed state (SeenJobsDB, lines 128-181) -/

/-- The projection stored per seen posting (`mark_seen`, lines 153-159). -/
structure SeenRecord where
  title : List Char
  company : List Char
  first_seen : Int
  score : Int
deriving DecidableEq, Repr

/-- The `seen` map of the database: an insertion-ordered dictionary from
identity strings to records, as a Python dict is. -/
abbrev SeenMap := List (List Char × SeenRecord)

/-- Seconds per day: `timedelta(days=d)` is modelled as `d * dayLen`. -/
def dayLen : Int := 86400

/-- `SeenJobsDB.is_new` (lines 150-151): a pure membership test on the
seen map, no state change. -/
def is_new (seen : SeenMap) (j : JobPosting) : Bool :=
  decide (j.job_id ∉ seen.map Prod.fst)

/-- `SeenJobsDB.mark_seen` (lines 153-159): dict assignment, overwriting
in place when the key exists and appending otherwise, with
`first_seen = datetime.now()` passed here as `now`. -/
def mark_seen (now : Int) (seen : SeenMap) (j : JobPosting) : SeenMap :=
  if j.job_id ∈ seen.map Prod.fst then
    seen.map (fun kv =>
      if kv.1 = j.job_id then
        (j.job_id, SeenRecord.mk j.title j.company now j.relevance_score)
      else kv)
  else
    seen ++ [(j.job_id, SeenRecord.mk j.title j.company now j.relevance_score)]

/-- `SeenJobsDB.cleanup` (lines 161-167): keep exactly the entries whose
`first_seen` is strictly later than `now - timedelta(days=days)`. -/
def cleanup (now days : Int) (seen : SeenMap) : SeenMap :=
  seen.filter (fun kv => decide (now - days * dayLen < kv.2.first_seen))

/-- Modelled from the claim wording of C5: remove exactly the entries
whose `first_seen` PREDATES the cutoff, keeping every other entry. -/
def claimCleanupC5 (now days : Int) (seen : SeenMap) : SeenMap :=
  seen.filter (fun kv => decide (¬ kv.2.first_seen < now - days * dayLen))

/-! ### State file loading (SeenJobsDB._load, lines 136-143)

The persisted state is arbitrary JSON, so the load path is modelled over
a JSON value type; a file is either missing, unparseable (the case
`json.JSONDecodeError` catches), or parses to some JSON value. -/

/-- JSON values, with objects as insertion-ordered key-value lists. -/
inductive Json where
  | null : Json
  | bool (b : Bool) : Json
  | num (n : Int) : Json
  | str (s : List Char) : Json
  | arr (xs : List Json) : Json
  | obj (kvs : List (List Char × Json)) : Json

/-- The contents of the state file as `_load` can encounter them. -/
inductive FileContent where
  | missing : FileContent
  | unparseable : FileContent
  | parsed (j : Json) : FileContent

/-- The empty state dict of line 143. -/
def emptyState : Json :=
  Json.obj [(chars "seen", Json.obj []),
            (chars "last_run", Json.null),
            (chars "stats", Json.obj [(chars "total_seen", Json.num 0),
                                      (chars "total_reported", Json.num 0)])]

/-- Key lookup in a JSON object body (Python dict subscript). -/
def lookupJ : List (List Char × Json) → List Char → Option Json
  | [], _ => none
  | (k, v) :: rest, key => if k = key then some v else lookupJ rest key

/-- `SeenJobsDB._load` (lines 136-143): a missing file and a file whose
contents fail JSON parsing both yield the empty state (the latter through
the `except (json.JSONDecodeError, KeyError)` handler; `json.load` itself
never raises `KeyError`), while any successfully parsed JSON value is
returned unchanged, whatever its shape. -/
def load : FileContent → Json
  | FileContent.missing => emptyState
  | FileContent.unparseable => emptyState
  | FileContent.parsed j => j

/-- `SeenJobsDB.is_new` as executed on a loaded JSON state:
`job_id not in self.data["seen"]`.  Returns `none` when the subscript or
the membership test raises (`KeyError` when the loaded dict has no
"seen" key, `TypeError` when the loaded value is not a dict or the value
under "seen" is not a dict). -/
def is_newJ (state : Json) (job_id : List Char) : Option Bool :=
  match state with
  | Json.obj kvs =>
    match lookupJ kvs (chars "seen") with
    | some (Json.obj seen) => some (decide (job_id ∉ seen.map Prod.fst))
    | some _ => none
    | none => none
  | _ => none

/-- The seen map consulted by the novelty filter of the run after the one
that marked a posting: `mark_seen` happened at `tMark` (lines 965-966 of
the earlier run) and the later run begins with `cleanup` at `tClean`
(line 909) before its `is_new` calls. -/
def nextRunSeen (seen : SeenMap) (tMark tClean days : Int)
    (p : JobPosting) : SeenMap :=
  cleanup tClean days (mark_seen tMark seen p)

/-- The rendered list is ordered by non-increasing relevance score. -/
def ScoresDesc (l : List JobPosting) : Prop :=
  List.Pairwise (fun a b => b.relevance_score ≤ a.relevance_score) l

/-! ### Concrete inputs for the counterexamples -/

/-- A retained posting of score 10 that the pipeline produced first. -/
def jLowC1 : JobPosting :=
  { mkJobPosting (chars "low") (chars "c1") [] (chars "u1") [] [] [] [] with
    relevance_score := 10 }

/-- A retained posting of score 90 that the pipeline produced second. -/
def jHighC1 : JobPosting :=
  { mkJobPosting (chars "high") (chars "c2") [] (chars "u2") [] [] [] [] with
    relevance_score := 90 }

/-- A posting without url whose fallback key string is "a|b". -/
def jA3 : JobPosting := mkJobPosting (chars "a") (chars "b") [] [] [] [] [] []

/-- A posting whose url is the string "a|b", a distinct key under the
claim reading (url vs pair) but the same string key in the code. -/
def jB3 : JobPosting :=
  mkJobPosting (chars "x") (chars "y") [] (chars "a|b") [] [] [] []

/-- A posting with a url, for the non-collapse scenario of C3. -/
def jP3 : JobPosting :=
  mkJobPosting (chars "t") (chars "c") [] (chars "https://a.com/1") [] [] [] []

/-- The same title and company as `jP3` but with an empty url. -/
def jQ3 : JobPosting := mkJobPosting (chars "t") (chars "c") [] [] [] [] [] []

/-- A seen entry whose `first_seen` sits exactly on the cleanup cutoff
when cleanup runs at time `31 * dayLen` with a 30 day window. -/
def e5 : List Char × SeenRecord :=
  (chars "k", SeenRecord.mk (chars "t") (chars "c") dayLen 0)

/-! ## Helper lemmas about the dedup loop -/

theorem dedupByAux_sublist {κ : Type} [DecidableEq κ] (key : JobPosting → κ)
    (l : List JobPosting) : ∀ seen, (dedupByAux key seen l).Sublist l := by
  induction l with
  | nil => intro seen; simp [dedupByAux]
  | cons j rest ih =>
    intro seen
    by_cases h : key j ∈ seen
    · simpa [dedupByAux, h] using (ih seen).cons j
    · simpa [dedupByAux, h] using (ih (key j :: seen)).cons₂ j

theorem dedupByAux_keys {κ : Type} [DecidableEq κ] (key : JobPosting → κ)
    (l : List JobPosting) : ∀ seen,
    ((dedupByAux key seen l).map key).Nodup
    ∧ ∀ k ∈ (dedupByAux key seen l).map key, k ∉ seen := by
  induction l with
  | nil => intro seen; simp [dedupByAux]
  | cons j rest ih =>
    intro seen
    by_cases h : key j ∈ seen
    · simpa [dedupByAux, h] using ih seen
    · obtain ⟨hnd, hni⟩ := ih (key j :: seen)
      refine ⟨?_, ?_⟩
      · simp only [dedupByAux, if_neg h, List.map_cons, List.nodup_cons]
        exact ⟨fun hk => (hni _ hk) (List.mem_cons_self _ _), hnd⟩
      · intro k hk
        simp only [dedupByAux, if_neg h, List.map_cons, List.mem_cons] at hk
        rcases hk with rfl | hk
        · exact h
        · exact fun hks => (hni k hk) (List.mem_cons_of_mem _ hks)

theorem dedupByAux_covers {κ : Type} [DecidableEq κ] (key : JobPosting → κ)
    (l : List JobPosting) : ∀ seen (j : JobPosting), j ∈ l →
    key j ∈ seen ∨ key j ∈ (dedupByAux key seen l).map key := by
  induction l with
  | nil => intro seen j hj; cases hj
  | cons a rest ih =>
    intro seen j hj
    rcases List.mem_cons.mp hj with rfl | hj'
    · by_cases h : key j ∈ seen
      · exact Or.inl h
      · refine Or.inr ?_
        simp [dedupByAux, h]
    · by_cases h : key a ∈ seen
      · simpa [dedupByAux, h] using ih seen j hj'
      · rcases ih (key a :: seen) j hj' with hin | hout
        · rcases List.mem_cons.mp hin with heq | hseen
          · refine Or.inr ?_
            simp [dedupByAux, h, heq]
          · exact Or.inl hseen
        · refine Or.inr ?_
          simp only [dedupByAux, if_neg h, List.map_cons, List.mem_cons]
          exact Or.inr hout

theorem dedupByAux_first {κ : Type} [DecidableEq κ] (key : JobPosting → κ)
    (l₁ : List JobPosting) : ∀ seen (l₂ : List JobPosting) (j : JobPosting),
    key j ∉ seen → key j ∉ l₁.map key →
    j ∈ dedupByAux key seen (l₁ ++ j :: l₂) := by
  induction l₁ with
  | nil =>
    intro seen l₂ j h1 _
    simp [dedupByAux, h1]
  | cons a rest ih =>
    intro seen l₂ j h1 h2
    simp only [List.map_cons, List.mem_cons, not_or] at h2
    obtain ⟨hne, h2'⟩ := h2
    by_cases h : key a ∈ seen
    · simpa [dedupByAux, h] using ih seen l₂ j h1 h2'
    · have h1' : key j ∉ key a :: seen := by
        simp only [List.mem_cons, not_or]
        exact ⟨hne, h1⟩
      simp only [List.cons_append, dedupByAux, if_neg h, List.mem_cons]
      exact Or.inr (ih (key a :: seen) l₂ j h1' h2')

theorem dedupByAux_fixed {κ : Type} [DecidableEq κ] (key : JobPosting → κ)
    (l : List JobPosting) : ∀ seen, (l.map key).Nodup →
    (∀ k ∈ l.map key, k ∉ seen) → dedupByAux key seen l = l := by
  induction l with
  | nil => intro seen _ _; rfl
  | cons a rest ih =>
    intro seen hnd hdisj
    have ha : key a ∉ seen := hdisj (key a) (by simp)
    simp only [List.map_cons, List.nodup_cons] at hnd
    simp only [dedupByAux, if_neg ha, List.cons.injEq, true_and]
    refine ih (key a :: seen) hnd.2 ?_
    intro k hk
    simp only [List.mem_cons, not_or]
    refine ⟨?_, hdisj k (List.mem_cons_of_mem _ hk)⟩
    intro heq
    exact hnd.1 (heq ▸ hk)

/-! ## Helper lemmas about the report sort -/

theorem insertDesc_perm (j : JobPosting) (l : List JobPosting) :
    (insertDesc j l).Perm (j :: l) := by
  induction l with
  | nil => rfl
  | cons x xs ih =>
    by_cases h : x.relevance_score ≤ j.relevance_score
    · simp [insertDesc, h]
    · simp only [insertDesc, if_neg h]
      exact (List.Perm.cons x ih).trans (List.Perm.swap j x xs)

theorem sortDesc_perm (l : List JobPosting) : (sortDesc l).Perm l := by
  induction l with
  | nil => rfl
  | cons x xs ih =>
    exact (insertDesc_perm x (sortDesc xs)).trans (List.Perm.cons x ih)

theorem insertDesc_sorted (j : JobPosting) (l : List JobPosting)
    (h : ScoresDesc l) : ScoresDesc (insertDesc j l) := by
  induction l with
  | nil => simp [insertDesc, ScoresDesc]
  | cons x xs ih =>
    obtain ⟨hx, hxs⟩ := List.pairwise_cons.mp h
    by_cases hc : x.relevance_score ≤ j.relevance_score
    · simp only [insertDesc, if_pos hc]
      refine List.Pairwise.cons ?_ h
      intro y hy
      rcases List.mem_cons.mp hy with rfl | hy'
      · exact hc
      · exact (hx y hy').trans hc
    · simp only [insertDesc, if_neg hc]
      refine List.Pairwise.cons ?_ (ih hxs)
      intro y hy
      have hy2 : y ∈ j :: xs := (insertDesc_perm j xs).subset hy
      rcases List.mem_cons.mp hy2 with rfl | hy'
      · exact le_of_lt (lt_of_not_le hc)
      · exact hx y hy'

theorem sortDesc_sorted (l : List JobPosting) : ScoresDesc (sortDesc l) := by
  induction l with
  | nil => exact List.Pairwise.nil
  | cons x xs ih => exact insertDesc_sorted x (sortDesc xs) ih

/-! ## Claim theorems -/

/-- Claim C1, counterexample.  The claim says the retained set is sorted
by score descending and THEN truncated, so the renderer receives the
highest-scoring `max_results` postings.  With two retained postings of
scores 10 and 90 in pipeline order and an output cap of 1, the code
truncates first (line 977) and only then sorts inside the renderer
(line 656), so the rendered sequence is the low scorer, while the claimed
sort-then-truncate order would be the high scorer. -/
theorem C1_counterexample :
    reportSequence [jLowC1, jHighC1] 1 = [jLowC1]
    ∧ specSortThenTruncate [jLowC1, jHighC1] 1 = [jHighC1]
    ∧ [jLowC1] ≠ [jHighC1] := by
  refine ⟨by decide, by decide, by decide⟩

/-- Claim C1, amended.  The final retained set is truncated to
`max_results` in pipeline order first (line 977) and the renderer then
sorts that truncated list by relevance score descending (line 656): the
rendered sequence is a descending-score reordering of the FIRST
`max_results` retained postings, not necessarily of the highest-scoring
ones. -/
theorem C1_truncate_then_sort (new_jobs : List JobPosting) (max_results : Nat) :
    report_jobs new_jobs max_results = new_jobs.take max_results
    ∧ (reportSequence new_jobs max_results).Perm (new_jobs.take max_results)
    ∧ ScoresDesc (reportSequence new_jobs max_results) := by
  exact ⟨rfl, sortDesc_perm _, sortDesc_sorted _⟩

/-- Claim C2, counterexample.  The claim says the salary scan also finds
numbers of the "95k eur" style.  On the text "45k eur" a scanner that
tolerates the letter k, as the claim describes, reconstructs 45000 and
subtracts 20, but the regex of line 239 allows only an optional
separator, an optional 3-digit group and whitespace between the number
and the currency marker, so the code finds no match and the contribution
is 0. -/
theorem C2_counterexample :
    (salarySignal (chars "45k eur")).1 = 0
    ∧ salarySpecC2 (chars "45k eur") = -20
    ∧ (0 : Int) ≠ -20 := by
  refine ⟨by decide, by decide, by decide⟩

/-- Claim C2, amended.  The salary sub-rule scans the salary text for a
2-3 digit number, optionally followed by a "." or "," separator and a
3-digit group, then optional whitespace and a currency marker
(€, eur, euro) - the "120.000 €" style, but NOT the "95k eur" style,
which the pattern rejects.  A bare number is interpreted times 1000 and a
grouped number as the digit concatenation; a reconstructed amount of at
least 100000 adds 10 and one below 60000 subtracts 20, with no effect in
between or on no match. -/
theorem C2_salary_rule :
    (∀ s : List Char, (salarySignal s).1 = salarySpecAmended s)
    ∧ searchSalary (chars "120.000 €") = some (chars "120", some (chars "000"))
    ∧ (salarySignal (chars "120.000 €")).1 = 10
    ∧ searchSalary (chars "95 eur") = some (chars "95", none)
    ∧ (salarySignal (chars "95 eur")).1 = 0
    ∧ (salarySignal (chars "34 eur")).1 = -20
    ∧ searchSalary (chars "45k eur") = none := by
  refine ⟨?_, by decide, by decide, by decide, by decide, by decide, by decide⟩
  intro s
  cases h : searchSalary s with
  | none => simp [salarySignal, salarySpecAmended, h]
  | some m =>
    obtain ⟨d1, g2⟩ := m
    cases g2 with
    | none =>
      simp only [salarySignal, salarySpecAmended, h, Option.isSome_none,
        Bool.false_eq_true, if_false, mul_one]
      split
      · rfl
      · split <;> rfl
    | some g =>
      simp only [salarySignal, salarySpecAmended, h]
      split
      · rfl
      · split <;> rfl

/-- Claim C3, counterexample.  The claim reads the fallback key as the
PAIR (title, company), distinct from every url key.  In the code both
kinds of key live in the single string set `seen_urls` (line 945), the
fallback being the joined string `title|company`: a posting with empty
url, title "a" and company "b" and a posting whose url is the string
"a|b" have distinct claim keys but the same code key, so the code
collapses them while the claimed dedup keeps both. -/
theorem C3_counterexample :
    dedup [jA3, jB3] = [jA3]
    ∧ claimDedupC3 [jA3, jB3] = [jA3, jB3]
    ∧ ([jA3] : List JobPosting) ≠ [jA3, jB3] := by
  refine ⟨by decide, by decide, by decide⟩

/-- Claim C3, amended.  The deduplicator keeps one entry per distinct
STRING key, preserving the order of first occurrence, where the key is
the url when non-empty and otherwise the single joined string
`title|company`; both kinds share one namespace, so a url equal to
another posting fallback string collides with it.  In particular two
postings with identical title and company, one with a non-empty url and
one with an empty url, are NOT collapsed (final conjunct). -/
theorem C3_dedup_behaviour :
    (∀ l : List JobPosting, ((dedup l).map dedupKey).Nodup)
    ∧ (∀ l : List JobPosting, (dedup l).Sublist l)
    ∧ (∀ (l : List JobPosting) (j : JobPosting), j ∈ l →
        dedupKey j ∈ (dedup l).map dedupKey)
    ∧ (∀ (l₁ l₂ : List JobPosting) (j : JobPosting),
        dedupKey j ∉ l₁.map dedupKey → j ∈ dedup (l₁ ++ j :: l₂))
    ∧ dedup [jP3, jQ3] = [jP3, jQ3] := by
  refine ⟨?_, ?_, ?_, ?_, by decide⟩
  · intro l
    exact (dedupByAux_keys dedupKey l []).1
  · intro l
    exact dedupByAux_sublist dedupKey l []
  · intro l j hj
    rcases dedupByAux_covers dedupKey l [] j hj with hin | hout
    · cases hin
    · exact hout
  · intro l₁ l₂ j hj
    exact dedupByAux_first dedupKey l₁ [] l₂ j (by simp) hj

/-- Claim C3, witness for the amended theorem: the key of a member of a
concrete input list appears among the keys of the dedup output. -/
theorem C3_witness :
    jA3 ∈ [jA3, jB3] ∧ dedupKey jA3 ∈ (dedup [jA3, jB3]).map dedupKey :=
  ⟨by decide, C3_dedup_behaviour.2.2.1 [jA3, jB3] jA3 (by decide)⟩

/-- Claim C8: the run-local deduplication is idempotent; applying it to
its own output returns the same list in the same order. -/
theorem C8_dedup_idempotent (l : List JobPosting) : dedup (dedup l) = dedup l := by
  have hk := dedupByAux_keys dedupKey l []
  refine dedupByAux_fixed dedupKey (dedup l) [] hk.1 ?_
  intro k _
  simp

/-- Claim C4: the code violates its own recovery intent.  A state file
holding the valid JSON text `{}` parses, so the handler of line 141 (which
names `KeyError`, an exception `json.load` can never raise) does not fire:
`_load` returns the shapeless object unchanged instead of the documented
empty state, and the first subsequent store operation that subscripts
`data["seen"]` fails instead of succeeding.  The final two conjuncts are
the cases the claim gets right: a missing file and an unparseable file
both yield the empty state. -/
theorem C4_load_shape_divergence :
    load (FileContent.parsed (Json.obj [])) = Json.obj []
    ∧ Json.obj [] ≠ emptyState
    ∧ is_newJ (load (FileContent.parsed (Json.obj []))) (chars "x") = none
    ∧ load FileContent.missing = emptyState
    ∧ load FileContent.unparseable = emptyState := by
  refine ⟨rfl, ?_, rfl, rfl, rfl⟩
  intro h
  simp [emptyState] at h

/-- Claim C5, counterexample.  The claim says cleanup removes exactly the
entries whose `first_seen` PREDATES the cutoff.  An entry whose
`first_seen` equals the cutoff exactly does not predate it, yet the code
keeps only entries strictly later than the cutoff (line 166) and so
removes it, while the claimed removal rule keeps it. -/
theorem C5_counterexample :
    cleanup (31 * dayLen) 30 [e5] = []
    ∧ claimCleanupC5 (31 * dayLen) 30 [e5] = [e5]
    ∧ ([] : SeenMap) ≠ [e5] := by
  refine ⟨by decide, by decide, by decide⟩

/-- Claim C5, amended.  `cleanup(d)` removes exactly the entries whose
`first_seen` is at or before `now - d` days (equivalently it keeps
exactly those strictly later than the cutoff): afterwards every remaining
entry is strictly newer than the cutoff, every entry strictly newer than
the cutoff survives untouched (same key, same record, same order), and
cleanup of the empty store removes nothing and raises no error. -/
theorem C5_cleanup_behaviour (now days : Int) (seen : SeenMap) :
    (∀ kv ∈ cleanup now days seen, now - days * dayLen < kv.2.first_seen)
    ∧ (∀ kv ∈ seen, now - days * dayLen < kv.2.first_seen →
        kv ∈ cleanup now days seen)
    ∧ (cleanup now days seen).Sublist seen
    ∧ cleanup now days ([] : SeenMap) = [] := by
  refine ⟨?_, ?_, List.filter_sublist seen, rfl⟩
  · intro kv hkv
    have h := (List.mem_filter.mp hkv).2
    simpa using h
  · intro kv hkv h
    refine List.mem_filter.mpr ⟨hkv, ?_⟩
    simpa using h

/-- Claim C5, witness: a concrete entry strictly newer than the cutoff
survives a concrete cleanup. -/
theorem C5_witness :
    (chars "k", SeenRecord.mk (chars "t") (chars "c") (2 * dayLen) 0)
      ∈ cleanup dayLen 0
        [(chars "k", SeenRecord.mk (chars "t") (chars "c") (2 * dayLen) 0)] :=
  (C5_cleanup_behaviour dayLen 0
      [(chars "k", SeenRecord.mk (chars "t") (chars "c") (2 * dayLen) 0)]).2.1
    (chars "k", SeenRecord.mk (chars "t") (chars "c") (2 * dayLen) 0)
    (by decide) (by decide)

/-- Claim C6: a posting marked seen at `tMark` makes every posting with
the same title, company and url (hence the same computed identity) fail
`is_new` in a later run whose retention cleanup at `tClean` still keeps
the entry, and such a posting is excluded from that run report list
whatever its score and whatever the output cap; `is_new` is a pure read
that is true exactly when the identity is absent from the seen map. -/
theorem C6_cross_run_novelty (seen : SeenMap) (tMark tClean days : Int)
    (t c u loc1 loc2 src1 src2 de1 de2 sa1 sa2 da1 da2 : List Char)
    (hwin : tClean - days * dayLen < tMark) :
    is_new (nextRunSeen seen tMark tClean days
        (mkJobPosting t c loc1 u src1 de1 sa1 da1))
        (mkJobPosting t c loc2 u src2 de2 sa2 da2) = false
    ∧ (∀ (l : List JobPosting) (m : Nat),
        mkJobPosting t c loc2 u src2 de2 sa2 da2 ∉
          (l.filter (fun j => is_new (nextRunSeen seen tMark tClean days
              (mkJobPosting t c loc1 u src1 de1 sa1 da1)) j)).take m)
    ∧ (∀ (s : SeenMap) (j : JobPosting),
        is_new s j = true ↔ j.job_id ∉ s.map Prod.fst) := by
  have hrec : ((mkJobPosting t c loc1 u src1 de1 sa1 da1).job_id,
      SeenRecord.mk (mkJobPosting t c loc1 u src1 de1 sa1 da1).title
        (mkJobPosting t c loc1 u src1 de1 sa1 da1).company tMark
        (mkJobPosting t c loc1 u src1 de1 sa1 da1).relevance_score)
      ∈ mark_seen tMark seen (mkJobPosting t c loc1 u src1 de1 sa1 da1) := by
    unfold mark_seen
    by_cases h : (mkJobPosting t c loc1 u src1 de1 sa1 da1).job_id ∈ seen.map Prod.fst
    · rw [if_pos h]
      obtain ⟨kv, hkv, hfst⟩ := List.mem_map.mp h
      refine List.mem_map.mpr ⟨kv, hkv, ?_⟩
      rw [if_pos hfst]
    · rw [if_neg h]
      exact List.mem_append_right _ (List.mem_singleton.mpr rfl)
  have hclean : ((mkJobPosting t c loc1 u src1 de1 sa1 da1).job_id,
      SeenRecord.mk (mkJobPosting t c loc1 u src1 de1 sa1 da1).title
        (mkJobPosting t c loc1 u src1 de1 sa1 da1).company tMark
        (mkJobPosting t c loc1 u src1 de1 sa1 da1).relevance_score)
      ∈ nextRunSeen seen tMark tClean days
          (mkJobPosting t c loc1 u src1 de1 sa1 da1) := by
    unfold nextRunSeen cleanup
    refine List.mem_filter.mpr ⟨hrec, ?_⟩
    simpa using hwin
  have hmem : (mkJobPosting t c loc2 u src2 de2 sa2 da2).job_id
      ∈ (nextRunSeen seen tMark tClean days
          (mkJobPosting t c loc1 u src1 de1 sa1 da1)).map Prod.fst :=
    List.mem_map.mpr ⟨_, hclean, rfl⟩
  have hfalse : is_new (nextRunSeen seen tMark tClean days
      (mkJobPosting t c loc1 u src1 de1 sa1 da1))
      (mkJobPosting t c loc2 u src2 de2 sa2 da2) = false :=
    decide_eq_false (not_not_intro hmem)
  refine ⟨hfalse, ?_, ?_⟩
  · intro l m hq
    have h1 := List.take_subset m _ hq
    have h2 : is_new (nextRunSeen seen tMark tClean days
        (mkJobPosting t c loc1 u src1 de1 sa1 da1))
        (mkJobPosting t c loc2 u src2 de2 sa2 da2) = true :=
      (List.mem_filter.mp h1).2
    rw [hfalse] at h2
    cases h2
  · intro s j
    unfold is_new
    exact decide_eq_true_iff

/-- Claim C6, witness: with an empty prior map, a mark at time 10 and a
cleanup at time 5 with a 0 day window, the identically identified posting
is not new. -/
theorem C6_witness :
    ((5 : Int) - 0 * dayLen < 10)
    ∧ is_new (nextRunSeen [] 10 5 0 (mkJobPosting (chars "t") (chars "c")
        (chars "l1") (chars "u") (chars "s1") [] [] []))
        (mkJobPosting (chars "t") (chars "c") (chars "l2") (chars "u")
          (chars "s2") [] [] []) = false :=
  ⟨by decide,
    (C6_cross_run_novelty [] 10 5 0 (chars "t") (chars "c") (chars "u")
      (chars "l1") (chars "l2") (chars "s1") (chars "s2") [] [] [] [] [] []
      (by decide)).1⟩

/-- Claim C7: the scorer returns a relevance score between 0 and 100, and
that score is the clamp `max(0, min(100, raw_sum))` of the additively
assembled raw signal sum. -/
theorem C7_score_bounds (cfg : Config) (job : JobPosting) :
    0 ≤ (score cfg job).relevance_score
    ∧ (score cfg job).relevance_score ≤ 100
    ∧ (score cfg job).relevance_score = max 0 (min 100 (rawScore cfg job)) := by
  refine ⟨le_max_left 0 _, ?_, rfl⟩
  exact max_le (by norm_num) (min_le_left _ _)

/-- Claim C9: the pre-hash identity string `title|company|url` is a
deterministic function of the three fields, and changing exactly one
field while fixing the other two always changes the pre-hash string; the
identity is the fixed md5 digest of that string, so it then changes too,
absent a hash collision. -/
theorem C9_identity_fields :
    (∀ t c u : List Char, job_id_raw t c u = job_id_raw t c u)
    ∧ (∀ t t' c u : List Char, t ≠ t' → job_id_raw t c u ≠ job_id_raw t' c u)
    ∧ (∀ t c c' u : List Char, c ≠ c' → job_id_raw t c u ≠ job_id_raw t c' u)
    ∧ (∀ t c u u' : List Char, u ≠ u' → job_id_raw t c u ≠ job_id_raw t c u') := by
  refine ⟨fun _ _ _ => rfl, ?_, ?_, ?_⟩
  · intro t t' c u hne h
    exact hne (List.append_cancel_right h)
  · intro t c c' u hne h
    have h1 := List.append_cancel_left h
    have h2 : c ++ '|' :: u = c' ++ '|' :: u := by
      injection h1
    exact hne (List.append_cancel_right h2)
  · intro t c u u' hne h
    have h1 := List.append_cancel_left h
    have h2 : c ++ '|' :: u = c ++ '|' :: u' := by
      injection h1
    have h3 := List.append_cancel_left h2
    injection h3 with _ h4
    exact hne h4

/-- Claim C9, witness: two concrete titles differing while company and
url are fixed give different pre-hash identities. -/
theorem C9_witness :
    chars "a" ≠ chars "b"
    ∧ job_id_raw (chars "a") (chars "c") (chars "u")
        ≠ job_id_raw (chars "b") (chars "c") (chars "u") :=
  ⟨by decide, C9_identity_fields.2.1 (chars "a") (chars "b") (chars "c")
    (chars "u") (by decide)⟩

/-- Claim C10: the identity hashes the single joined string
`title|company|url`, so the distinct triples ("a|b", "c", "u") and
("a", "b|c", "u") produce the same pre-hash string and hence the same
identity with no hash collision involved; identity equality does not
imply equality of the three fields. -/
theorem C10_prehash_collision :
    job_id_raw (chars "a|b") (chars "c") (chars "u")
      = job_id_raw (chars "a") (chars "b|c") (chars "u")
    ∧ (mkJobPosting (chars "a|b") (chars "c") [] (chars "u") [] [] [] []).job_id
      = (mkJobPosting (chars "a") (chars "b|c") [] (chars "u") [] [] [] []).job_id
    ∧ (chars "a|b", chars "c", chars "u") ≠ (chars "a", chars "b|c", chars "u") := by
  refine ⟨by decide, by decide, by decide⟩

end Scraper
